import Mathlib

/-!
Shallow embedding of the RAG pipeline (chunker, importer dedup loop,
sample-data loader, query/answer engine, constructor validation) together
with proofs of the specified properties.

Texts are modelled as `List Char`; Python slices `text[a:b]` become
`(text.drop a).take (b - a)` and the negative slice `text[-size:]` becomes
`text.drop (text.length - size)` (Nat subtraction clamps at 0, matching
Python's clamping of negative start indices). Exceptions are modelled with
`Except String`.
-/

/-- Loop of `DataImporter.__chunk_text`: `while start < len(text)` emitting
`text[start:start+size]`, with a right-aligned final slice `text[-size:]`
once `start + size >= len(text)`. The loop is run on an explicit fuel
counter; the wrapper passes `text.length + 1`, which is never exhausted
when `step ≥ 1` since `start` grows by `step` on each iteration while
`start < text.length`. -/
def chunkLoopF (text : List Char) (size step : Nat) : Nat → Nat → List (List Char)
  | 0, _ => []
  | fuel + 1, start =>
    if start < text.length then
      if text.length ≤ start + size then
        [text.drop (text.length - size)]
      else
        (text.drop start).take size :: chunkLoopF text size step fuel (start + step)
    else []

/-- `DataImporter.__chunk_text`: validates `chunk_size > 0` and
`0 ≤ overlap < chunk_size` (raising `ValueError` otherwise, modelled as
`Except.error`), then runs the sliding-window loop with
`step = chunk_size - overlap` from `start = 0`. -/
def chunk_text (text : List Char) (chunk_size overlap : Int) : Except String (List (List Char)) :=
  if chunk_size ≤ 0 then
    Except.error "chunk_size must be > 0"
  else if overlap < 0 ∨ overlap ≥ chunk_size then
    Except.error "overlap must be >= 0 and smaller than chunk_size"
  else
    Except.ok (chunkLoopF text chunk_size.toNat (chunk_size - overlap).toNat (text.length + 1) 0)

/-- Start offsets of the chunks emitted by `chunkLoopF`: the same loop,
recording each chunk's start offset in `text` instead of its characters
(the final right-aligned chunk starts at `len - size`, clamped at 0). -/
def chunkStartsF (len size step : Nat) : Nat → Nat → List Nat
  | 0, _ => []
  | fuel + 1, start =>
    if start < len then
      if len ≤ start + size then
        [len - size]
      else
        start :: chunkStartsF len size step fuel (start + step)
    else []

/-- Start offsets corresponding to `chunk_text` on a text of length `len`
with valid parameters. -/
def chunkStarts (len : Nat) (chunk_size overlap : Int) : List Nat :=
  chunkStartsF len chunk_size.toNat (chunk_size - overlap).toNat (len + 1) 0

/-! ## Importer (`DataImporter.load_data`)

The Chroma collection is modelled as a list of stored records; `get(ids=[id])`
returning a non-empty `ids` field is modelled by `storeHas`, and
`collection.add` by appending a record. Embeddings are produced by an optional
embedding function (`embed_fn`), as in the source, with abstract `List Int`
vectors standing for the float vectors of the external embedding model. -/

/-- One input item of `load_data`: `{"id": ..., "doc": ..., "meta": {...}}`. -/
structure Item where
  id : String
  doc : List Char
  meta : List (String × String)
deriving DecidableEq, Repr

/-- One stored record of the Chroma collection:
`(chunk id, chunk text, embedding, metadata)`. -/
structure Record where
  id : String
  doc : List Char
  emb : Option (List Int)
  meta : List (String × String)
deriving DecidableEq, Repr

/-- Chunking configuration of a `DataImporter` (its `chunk_size` and
`overlap` fields). -/
structure ImporterCfg where
  chunk_size : Int
  overlap : Int
deriving DecidableEq, Repr

/-- `self.chroma_collection.get(ids=[chunk_id]).get("ids")` is truthy, i.e.
a record with this id exists in the collection. -/
def storeHas (store : List Record) (cid : String) : Bool :=
  store.any (fun r => r.id == cid)

/-- Chunk id `f"{doc_id}_chunk{i}"`. -/
def chunkId (docId : String) (i : Nat) : String :=
  docId ++ "_chunk" ++ toString i

/-- Body of the inner loop of `load_data` for one chunk: if no record with
`cid` exists, add `(cid, chunk, embed_fn([chunk])[0] if embed_fn else None,
meta)`; otherwise skip. -/
def addChunk (embedFn : Option (List Char → List Int)) (store : List Record)
    (cid : String) (chunk : List Char) (meta : List (String × String)) : List Record :=
  if storeHas store cid then store
  else store ++ [⟨cid, chunk, embedFn.map (fun f => f chunk), meta⟩]

/-- Inner loop of `load_data`: `for i, chunk in enumerate(chunks)`, starting
the index at `i`. -/
def addChunks (embedFn : Option (List Char → List Int)) (docId : String)
    (meta : List (String × String)) : Nat → List (List Char) → List Record → List Record
  | _, [], store => store
  | i, c :: cs, store =>
    addChunks embedFn docId meta (i + 1) cs (addChunk embedFn store (chunkId docId i) c meta)

/-- Body of the outer loop of `load_data` for one item: chunk its text
(propagating the chunker's `ValueError`), then run the per-chunk loop. -/
def loadItem (cfg : ImporterCfg) (embedFn : Option (List Char → List Int))
    (store : List Record) (item : Item) : Except String (List Record) :=
  (chunk_text item.doc cfg.chunk_size cfg.overlap).map
    (fun chunks => addChunks embedFn item.id item.meta 0 chunks store)

/-- `DataImporter.load_data`: iterate over the input items, threading the
collection state. -/
def load_data (cfg : ImporterCfg) (embedFn : Option (List Char → List Int)) :
    List Item → List Record → Except String (List Record)
  | [], store => Except.ok store
  | it :: rest, store =>
    match loadItem cfg embedFn store it with
    | Except.error e => Except.error e
    | Except.ok st2 => load_data cfg embedFn rest st2

/-! ## Document loader (`DataLoader`) -/

/-- `DataLoader._load_sample_data`: the parsed value of the hardcoded JSON
literal, a fixed list of five sample documents. -/
def sample_data : List Item :=
  [⟨"doc1", "Chroma is an engine for vector databases.".toList, [("source", "notes")]⟩,
   ⟨"doc2", "OpenAI embeddings allow text to be converted into vectors.".toList,
     [("source", "blog")]⟩,
   ⟨"doc3", "LangChain makes it easier to create applications based on LLMs.".toList,
     [("source", "documentation")]⟩,
   ⟨"doc4", "Vector databases enable efficient searching through large text data sets.".toList,
     [("source", "article")]⟩,
   ⟨"doc5", "RAG combines text generation with real-time information retrieval.".toList,
     [("source", "presentation")]⟩]

/-- `DataLoader._load_data_from_url`: for each URL, fetch its page text
(the external HTTP fetch and HTML stripping of `_fetch_url_text` is the
abstract `fetch` parameter; an empty result models a failed or empty fetch,
which is skipped) and emit `{id: f"doc-{idx}-{sanitized}", doc, meta}`. -/
def load_data_from_url (fetch : String → List Char) (urls : List String) : List Item :=
  (urls.enum.filterMap (fun p =>
    let pageBody := fetch p.2
    if pageBody.isEmpty then none
    else some ⟨"doc-" ++ toString p.1 ++ "-" ++
      ((p.2.replace "https://" "").replace "/" "_"), pageBody, [("source", p.2)]⟩))

/-- `DataLoader.load_docs(urls=None)`: if `urls` is truthy (present and
non-empty), fetch from the URLs; otherwise return the sample data. -/
def load_docs (fetch : String → List Char) (urls : Option (List String)) : List Item :=
  match urls with
  | none => sample_data
  | some us => if us.isEmpty then sample_data else load_data_from_url fetch us

/-! ## Query / answer engine (`LLMSearch`)

The LLM backend call `self.ask` is the abstract `ask` parameter returning
`Except String String`: `Except.error e` models a raised exception with
message `e`. `search_with_context` catches any such exception and converts
it to the `"[LLM query error]"` string. -/

/-- RAG results dict as consumed by `search_with_context`: only its
`"documents"` field matters, an optional list of rows of document texts
(`results.get("documents", [[]])` defaults a missing field to `[[]]`). -/
structure RagResults where
  documents : Option (List (List String))

/-- The f-string prompt template of `search_with_context`, before
`.strip()`. -/
def buildPrompt (context user_query : String) : String :=
  "\n        Answer the user\x27s question based on the context.\n\n        Context:\n        "
    ++ context ++ "\n\n        Question:\n        " ++ user_query ++ "\n        "

/-- `LLMSearch.search_with_context`: take `results.get("documents", [[]])`;
if it or its first row is empty, return the fixed no-results sentinel;
otherwise join the first row with newlines into a context block, render the
prompt, and call `ask` on the stripped prompt, converting any exception
into the `"[LLM query error]"` string. -/
def search_with_context (ask : String → Except String String)
    (user_query : String) (results : RagResults) : String :=
  let retrieved_docs := results.documents.getD [[]]
  match retrieved_docs with
  | [] => "[No results to process.]"
  | row0 :: _ =>
    if row0.isEmpty then "[No results to process.]"
    else
      let context := String.intercalate "\n" row0
      match ask (buildPrompt context user_query).trim with
      | Except.ok answer => answer
      | Except.error e => "[LLM query error]: " ++ e

/-- Decoded JSON body of a local Ollama chat response, as inspected by
`_ask_ollama`: the content under `data["message"]["content"]` when the
`"message"` key is present, and the list of contents under
`data["messages"][i]["content"]` when the `"messages"` key is present. -/
structure OllamaData where
  message : Option String
  messages : Option (List String)

/-- `LLMSearch._ask_ollama`, given the outcome of the HTTP POST to the local
server (`Except.error e` models a raised `requests` exception with message
`e`, covering connection failures, bad statuses from `raise_for_status` and
JSON decode errors): a connection failure becomes the
`"[Connection error with Ollama]"` string; a body with a `"message"` key
returns its content; a body with a `"messages"` key returns the last
content (an empty list raises an uncaught `IndexError`, modelled as
`Except.error`); any other body becomes the fixed unexpected-format
string. -/
def ask_ollama (post : Except String OllamaData) : Except String String :=
  match post with
  | Except.error e => Except.ok ("[Connection error with Ollama]: " ++ e)
  | Except.ok data =>
    match data.message with
    | some content => Except.ok content
    | none =>
      match data.messages with
      | some msgs =>
        match msgs.getLast? with
        | some m => Except.ok m
        | none => Except.error "IndexError: list index out of range"
      | none => Except.ok "[Error]: Unexpected response format from Ollama."

/-! ## Constructor validation (`Embedder.__init__`, `LLMSearch.__init__`)

The process environment is the abstract `env` parameter; `os.getenv` returns
`none` for an unset variable. Construction is modelled up to its validation
logic: the external client objects (OpenAI client, SentenceTransformer
model) are not modelled, so a successful construction is `Except.ok ()`. -/

/-- `Embedder.__init__` validation: provider `"openai"` requires a truthy
`OPENAI_API_KEY` (unset or empty raises `ValueError`); provider `"local"`
always constructs (the external `SentenceTransformer(model_name)` load and
OpenAI client construction are not modelled); any other provider raises
`ValueError`. -/
def embedder_init (env : String → Option String) (provider model_name : String) :
    Except String Unit :=
  if provider == "openai" then
    if ((env "OPENAI_API_KEY").getD "").isEmpty then
      Except.error "Missing OpenAI API key. Set the OPENAI_API_KEY environment variable in .env."
    else Except.ok ()
  else if provider == "local" then Except.ok ()
  else Except.error ("Unsupported provider: " ++ provider)

/-- `LLMSearch.__init__` validation: provider `"openai"` requires a truthy
`OPENAI_API_KEY` (unset or empty raises `EnvironmentError`); provider
`"local"` always constructs; any other provider raises `ValueError`. -/
def llmsearch_init (env : String → Option String) (provider model : String) :
    Except String Unit :=
  if provider == "openai" then
    if ((env "OPENAI_API_KEY").getD "").isEmpty then
      Except.error "Missing environment variable OPENAI_API_KEY"
    else Except.ok ()
  else if provider == "local" then Except.ok ()
  else Except.error ("Unsupported provider: " ++ provider)

/-! ## Chunker lemmas -/

/-- The chunks emitted by the loop are exactly the `size`-bounded slices of
`text` at the start offsets recorded by `chunkStartsF`. -/
theorem chunkLoopF_eq_map (text : List Char) (size step : Nat) :
    ∀ fuel start, chunkLoopF text size step fuel start =
      (chunkStartsF text.length size step fuel start).map
        (fun s => (text.drop s).take size)
  | 0, _ => rfl
  | fuel + 1, start => by
    rw [chunkLoopF, chunkStartsF]
    by_cases h1 : start < text.length
    · rw [if_pos h1, if_pos h1]
      by_cases h2 : text.length ≤ start + size
      · rw [if_pos h2, if_pos h2]
        have hlen : (text.drop (text.length - size)).length ≤ size := by
          simp only [List.length_drop]; omega
        rw [List.map_cons, List.map_nil, List.take_of_length_le hlen]
      · rw [if_neg h2, if_neg h2, List.map_cons,
          chunkLoopF_eq_map text size step fuel (start + step)]
    · rw [if_neg h1, if_neg h1, List.map_nil]

/-- Coverage: when the loop starts at `start` with enough fuel, every index
`i` of the text with `start ≤ i` falls inside the range of one of the
emitted chunks. -/
theorem chunkStartsF_cover (len size step : Nat) (hstep : 1 ≤ step) (hss : step ≤ size) :
    ∀ fuel start, len ≤ start + fuel * step →
      ∀ i, start ≤ i → i < len →
        ∃ s ∈ chunkStartsF len size step fuel start, s ≤ i ∧ i < s + size
  | 0, start, hfuel, i, hsi, hil => absurd hil (by omega)
  | fuel + 1, start, hfuel, i, hsi, hil => by
    have h1 : start < len := by omega
    rw [chunkStartsF, if_pos h1]
    by_cases h2 : len ≤ start + size
    · rw [if_pos h2]
      exact ⟨len - size, by simp, by omega, by omega⟩
    · rw [if_neg h2]
      by_cases hi : i < start + step
      · exact ⟨start, by simp, hsi, by omega⟩
      · have hfuel2 : len ≤ (start + step) + fuel * step := by
          rw [Nat.succ_mul] at hfuel; omega
        obtain ⟨s, hmem, hs1, hs2⟩ :=
          chunkStartsF_cover len size step hstep hss fuel (start + step) hfuel2 i
            (by omega) hil
        exact ⟨s, List.mem_cons_of_mem _ hmem, hs1, hs2⟩

/-- When the loop emits at least two chunks, the first one starts at the
current `start` offset. -/
theorem chunkStartsF_head (len size step fuel start : Nat)
    (h : 2 ≤ (chunkStartsF len size step fuel start).length) :
    (chunkStartsF len size step fuel start).head? = some start := by
  cases fuel with
  | zero => simp [chunkStartsF] at h
  | succ fuel =>
    by_cases h1 : start < len
    · by_cases h2 : len ≤ start + size
      · simp [chunkStartsF, h1, h2] at h
      · simp [chunkStartsF, h1, h2]
    · simp [chunkStartsF, h1] at h

/-- Stride: any two consecutive start offsets other than the transition to
the final chunk differ by exactly `step`. -/
theorem chunkStartsF_stride (len size step : Nat) :
    ∀ fuel start j, j + 2 < (chunkStartsF len size step fuel start).length →
      (chunkStartsF len size step fuel start).get? (j + 1) =
        ((chunkStartsF len size step fuel start).get? j).map (fun s => s + step)
  | 0, start, j, h => by simp [chunkStartsF] at h
  | fuel + 1, start, j, h => by
    by_cases h1 : start < len
    · by_cases h2 : len ≤ start + size
      · simp [chunkStartsF, h1, h2] at h
      · have hrest : chunkStartsF len size step (fuel + 1) start =
            start :: chunkStartsF len size step fuel (start + step) := by
          rw [chunkStartsF, if_pos h1, if_neg h2]
        rw [hrest] at h ⊢
        cases j with
        | zero =>
          have hlen2 : 2 ≤ (chunkStartsF len size step fuel (start + step)).length := by
            simp at h; omega
          have hhead := chunkStartsF_head len size step fuel (start + step) hlen2
          rcases hc : chunkStartsF len size step fuel (start + step) with _ | ⟨a, t⟩
          · rw [hc] at hlen2; simp at hlen2
          · rw [hc] at hhead
            simp only [List.head?_cons, Option.some.injEq] at hhead
            simp [hhead]
        | succ jj =>
          have hrec := chunkStartsF_stride len size step fuel (start + step) jj
            (by simp at h; omega)
          simpa using hrec
    · simp [chunkStartsF, h1] at h

/-! ## Importer lemmas -/

/-- Adding a chunk never removes an existing id. -/
theorem storeHas_addChunk_mono (embedFn : Option (List Char → List Int))
    (store : List Record) (cid cid2 : String) (c : List Char)
    (m : List (String × String)) (h : storeHas store cid = true) :
    storeHas (addChunk embedFn store cid2 c m) cid = true := by
  rw [addChunk]
  split
  · exact h
  · simpa [storeHas, List.any_append] using Or.inl (by simpa [storeHas] using h)

/-- After `addChunk`, the added id exists in the collection. -/
theorem storeHas_addChunk_self (embedFn : Option (List Char → List Int))
    (store : List Record) (cid : String) (c : List Char)
    (m : List (String × String)) :
    storeHas (addChunk embedFn store cid c m) cid = true := by
  rw [addChunk]
  split
  · assumption
  · simp [storeHas, List.any_append]

/-- The per-chunk loop never removes an existing id. -/
theorem storeHas_addChunks_mono (embedFn : Option (List Char → List Int))
    (docId : String) (meta : List (String × String)) (cid : String) :
    ∀ (chunks : List (List Char)) (i : Nat) (store : List Record),
      storeHas store cid = true →
      storeHas (addChunks embedFn docId meta i chunks store) cid = true
  | [], _, _, h => h
  | c :: cs, i, store, h =>
    storeHas_addChunks_mono embedFn docId meta cid cs (i + 1) _
      (storeHas_addChunk_mono embedFn store cid (chunkId docId i) c meta h)

/-- After the per-chunk loop starting at index `i`, every id
`chunkId docId (i + j)` with `j` below the number of chunks exists. -/
theorem storeHas_addChunks_of_lt (embedFn : Option (List Char → List Int))
    (docId : String) (meta : List (String × String)) :
    ∀ (chunks : List (List Char)) (i : Nat) (store : List Record) (j : Nat),
      j < chunks.length →
      storeHas (addChunks embedFn docId meta i chunks store) (chunkId docId (i + j)) = true
  | [], _, _, j, hj => absurd hj (by simp)
  | c :: cs, i, store, 0, _ => by
    rw [Nat.add_zero, addChunks]
    exact storeHas_addChunks_mono embedFn docId meta (chunkId docId i) cs (i + 1) _
      (storeHas_addChunk_self embedFn store (chunkId docId i) c meta)
  | c :: cs, i, store, j + 1, hj => by
    have hidx : i + (j + 1) = (i + 1) + j := by omega
    rw [hidx, addChunks]
    exact storeHas_addChunks_of_lt embedFn docId meta cs (i + 1) _ j
      (by simpa using Nat.lt_of_succ_lt_succ hj)

/-- If every id the per-chunk loop would generate already exists, the loop
leaves the collection unchanged (the insert branch is unreachable). -/
theorem addChunks_no_op (embedFn : Option (List Char → List Int))
    (docId : String) (meta : List (String × String)) :
    ∀ (chunks : List (List Char)) (i : Nat) (store : List Record),
      (∀ j, j < chunks.length → storeHas store (chunkId docId (i + j)) = true) →
      addChunks embedFn docId meta i chunks store = store
  | [], _, _, _ => rfl
  | c :: cs, i, store, h => by
    have h0 : storeHas store (chunkId docId i) = true := by
      have := h 0 (by simp)
      rwa [Nat.add_zero] at this
    rw [addChunks, addChunk, if_pos h0]
    exact addChunks_no_op embedFn docId meta cs (i + 1) store (fun j hj => by
      have := h (j + 1) (by simpa using Nat.succ_lt_succ hj)
      rwa [show i + (j + 1) = (i + 1) + j by omega] at this)

/-- Importing one item never removes an existing id. -/
theorem loadItem_mono (cfg : ImporterCfg) (embedFn : Option (List Char → List Int))
    (store st2 : List Record) (it : Item) (cid : String)
    (h : loadItem cfg embedFn store it = Except.ok st2)
    (hhas : storeHas store cid = true) : storeHas st2 cid = true := by
  rw [loadItem] at h
  cases hct : chunk_text it.doc cfg.chunk_size cfg.overlap with
  | error e => rw [hct] at h; exact absurd h (by simp [Except.map])
  | ok chunks =>
    rw [hct] at h
    simp only [Except.map, Except.ok.injEq] at h
    exact h ▸ storeHas_addChunks_mono embedFn it.id it.meta cid chunks 0 store hhas

/-- A full import run never removes an existing id. -/
theorem load_data_mono (cfg : ImporterCfg) (embedFn : Option (List Char → List Int))
    (cid : String) :
    ∀ (items : List Item) (store st2 : List Record),
      load_data cfg embedFn items store = Except.ok st2 →
      storeHas store cid = true → storeHas st2 cid = true
  | [], store, st2, h, hhas => by
    rw [load_data] at h
    cases h
    exact hhas
  | it :: rest, store, st2, h, hhas => by
    rw [load_data] at h
    cases hli : loadItem cfg embedFn store it with
    | error e => rw [hli] at h; exact absurd h (by simp)
    | ok stMid =>
      rw [hli] at h
      exact load_data_mono cfg embedFn cid rest stMid st2 h
        (loadItem_mono cfg embedFn store stMid it cid hli hhas)

/-- After importing one item, every chunk id of that item exists. -/
theorem loadItem_done (cfg : ImporterCfg) (embedFn : Option (List Char → List Int))
    (store st2 : List Record) (it : Item) (chunks : List (List Char))
    (h : loadItem cfg embedFn store it = Except.ok st2)
    (hct : chunk_text it.doc cfg.chunk_size cfg.overlap = Except.ok chunks) :
    ∀ j, j < chunks.length → storeHas st2 (chunkId it.id j) = true := by
  intro j hj
  rw [loadItem, hct] at h
  simp only [Except.map, Except.ok.injEq] at h
  have := storeHas_addChunks_of_lt embedFn it.id it.meta chunks 0 store j hj
  rw [Nat.zero_add] at this
  exact h ▸ this

/-- If every chunk id of an item already exists, importing it again leaves
the collection unchanged. -/
theorem loadItem_no_op (cfg : ImporterCfg) (embedFn : Option (List Char → List Int))
    (store : List Record) (it : Item) (chunks : List (List Char))
    (hct : chunk_text it.doc cfg.chunk_size cfg.overlap = Except.ok chunks)
    (hhas : ∀ j, j < chunks.length → storeHas store (chunkId it.id j) = true) :
    loadItem cfg embedFn store it = Except.ok store := by
  rw [loadItem, hct]
  simp only [Except.map, Except.ok.injEq]
  exact addChunks_no_op embedFn it.id it.meta chunks 0 store (fun j hj => by
    rw [Nat.zero_add]; exact hhas j hj)

/-- The two chunk ids of distinct indices with distinct decimal renderings
are distinct, for every document id. -/
theorem chunkId_ne (docId : String) (i j : Nat) (h : toString i ≠ toString j) :
    chunkId docId i ≠ chunkId docId j := by
  intro he
  apply h
  apply String.ext
  have hd := congrArg String.data he
  simp only [chunkId, String.data_append, List.append_assoc] at hd
  exact List.append_cancel_left (List.append_cancel_left hd)

/-- Reassociation of the chunk id concatenation. -/
theorem chunkId_append (docId : String) (i : Nat) :
    chunkId docId i = docId ++ ("_chunk" ++ toString i) := by
  apply String.ext
  simp [chunkId, String.data_append, List.append_assoc]

/-! ## Claims -/

/-- C1: for every text and every `size > 0`, `0 ≤ overlap < size`, the
chunker succeeds and returns exactly the `size`-bounded slices of the text
at the recorded start offsets; every character index of the text lies
inside at least one emitted chunk's range `[s, s + size)`; and the start
offsets of consecutive chunks differ by exactly `size - overlap`, except
for the transition to the final (right-aligned) chunk. -/
theorem chunker_covers_and_strides (text : List Char) (chunk_size overlap : Int)
    (hs : 0 < chunk_size) (ho : 0 ≤ overlap) (hov : overlap < chunk_size) :
    chunk_text text chunk_size overlap =
      Except.ok ((chunkStarts text.length chunk_size overlap).map
        (fun s => (text.drop s).take chunk_size.toNat)) ∧
    (∀ i, i < text.length →
      ∃ s ∈ chunkStarts text.length chunk_size overlap,
        s ≤ i ∧ i < s + chunk_size.toNat) ∧
    (∀ j, j + 2 < (chunkStarts text.length chunk_size overlap).length →
      (chunkStarts text.length chunk_size overlap).get? (j + 1) =
        ((chunkStarts text.length chunk_size overlap).get? j).map
          (fun s => s + (chunk_size - overlap).toNat)) := by
  have hstep : 1 ≤ (chunk_size - overlap).toNat := by omega
  have hss : (chunk_size - overlap).toNat ≤ chunk_size.toNat := by omega
  refine ⟨?_, ?_, ?_⟩
  · rw [chunk_text, if_neg (by omega), if_neg (by omega), chunkStarts,
      chunkLoopF_eq_map]
  · intro i hi
    apply chunkStartsF_cover text.length chunk_size.toNat
      (chunk_size - overlap).toNat hstep hss (text.length + 1) 0 _ i
      (Nat.zero_le i) hi
    have hmul := Nat.le_mul_of_pos_right (text.length + 1) hstep
    omega
  · intro j hj
    exact chunkStartsF_stride text.length chunk_size.toNat
      (chunk_size - overlap).toNat (text.length + 1) 0 j hj

/-- Witness for C1 at text `"abcdefghij"`, size 4, overlap 1. -/
theorem chunker_covers_and_strides_witness :
    chunk_text "abcdefghij".toList 4 1 =
      Except.ok ((chunkStarts "abcdefghij".toList.length 4 1).map
        (fun s => ("abcdefghij".toList.drop s).take (4 : Int).toNat)) ∧
    (∀ i, i < "abcdefghij".toList.length →
      ∃ s ∈ chunkStarts "abcdefghij".toList.length 4 1,
        s ≤ i ∧ i < s + (4 : Int).toNat) ∧
    (∀ j, j + 2 < (chunkStarts "abcdefghij".toList.length 4 1).length →
      (chunkStarts "abcdefghij".toList.length 4 1).get? (j + 1) =
        ((chunkStarts "abcdefghij".toList.length 4 1).get? j).map
          (fun s => s + ((4 : Int) - 1).toNat)) :=
  chunker_covers_and_strides "abcdefghij".toList 4 1 (by decide) (by decide) (by decide)

/-- C2: chunking the 10-character text `"abcdefghij"` with size 4 and
overlap 1 yields exactly `["abcd", "defg", "ghij"]`, in that order. -/
theorem chunk_example_abcdefghij :
    chunk_text "abcdefghij".toList 4 1 =
      Except.ok ["abcd".toList, "defg".toList, "ghij".toList] := rfl

/-- C5: chunking fails with a validation error exactly when `size ≤ 0`, or
`overlap < 0`, or `overlap ≥ size`; for all valid parameters no error is
raised. -/
theorem chunk_text_validation_iff (text : List Char) (chunk_size overlap : Int) :
    (∃ e, chunk_text text chunk_size overlap = Except.error e) ↔
      chunk_size ≤ 0 ∨ overlap < 0 ∨ chunk_size ≤ overlap := by
  constructor
  · rintro ⟨e, he⟩
    by_contra hcon
    push_neg at hcon
    rw [chunk_text, if_neg (by omega), if_neg (by omega)] at he
    exact absurd he (by simp)
  · intro h
    rw [chunk_text]
    split
    · exact ⟨_, rfl⟩
    · split
      · exact ⟨_, rfl⟩
      · exact absurd h (by omega)

/-- C10: for all valid parameters, chunking the empty text returns the
empty chunk list, and importing a zero-length document inserts no
records. -/
theorem chunk_empty_no_records (chunk_size overlap : Int)
    (hs : 0 < chunk_size) (ho : 0 ≤ overlap) (hov : overlap < chunk_size) :
    chunk_text [] chunk_size overlap = Except.ok [] ∧
    ∀ (embedFn : Option (List Char → List Int)) (docId : String)
      (meta : List (String × String)) (store : List Record),
      load_data ⟨chunk_size, overlap⟩ embedFn [⟨docId, [], meta⟩] store =
        Except.ok store := by
  have hct : chunk_text ([] : List Char) chunk_size overlap = Except.ok [] := by
    rw [chunk_text, if_neg (by omega), if_neg (by omega)]
    rfl
  refine ⟨hct, ?_⟩
  intro embedFn docId meta store
  simp only [load_data, loadItem, hct, Except.map, addChunks]

/-- Witness for C10 at size 4, overlap 1. -/
theorem chunk_empty_no_records_witness :
    chunk_text [] 4 1 = Except.ok [] ∧
    ∀ (embedFn : Option (List Char → List Int)) (docId : String)
      (meta : List (String × String)) (store : List Record),
      load_data ⟨4, 1⟩ embedFn [⟨docId, [], meta⟩] store = Except.ok store :=
  chunk_empty_no_records 4 1 (by decide) (by decide) (by decide)

/-- C3: after a completed import run, re-running `load_data` with the
identical item list (same ids, texts, metadata, same chunking
configuration) from the resulting collection state changes nothing: every
chunk id generated on the second run already exists, so the insert branch
is unreachable and zero additional records are inserted. -/
theorem load_data_idempotent (cfg : ImporterCfg)
    (embedFn : Option (List Char → List Int)) :
    ∀ (items : List Item) (store store2 : List Record),
      load_data cfg embedFn items store = Except.ok store2 →
      load_data cfg embedFn items store2 = Except.ok store2
  | [], store, store2, h => by
    rw [load_data] at h
    cases h
    rfl
  | it :: rest, store, store2, h => by
    rw [load_data] at h
    cases hli : loadItem cfg embedFn store it with
    | error e => rw [hli] at h; exact absurd h (by simp)
    | ok stMid =>
      rw [hli] at h
      obtain ⟨chunks, hc⟩ :
          ∃ chunks, chunk_text it.doc cfg.chunk_size cfg.overlap = Except.ok chunks := by
        rw [loadItem] at hli
        cases hcc : chunk_text it.doc cfg.chunk_size cfg.overlap with
        | error e => rw [hcc] at hli; exact absurd hli (by simp [Except.map])
        | ok chunks => exact ⟨chunks, rfl⟩
      have hdoneMid := loadItem_done cfg embedFn store stMid it chunks hli hc
      have hdoneFinal : ∀ j, j < chunks.length →
          storeHas store2 (chunkId it.id j) = true := fun j hj =>
        load_data_mono cfg embedFn (chunkId it.id j) rest stMid store2 h (hdoneMid j hj)
      rw [load_data, loadItem_no_op cfg embedFn store2 it chunks hc hdoneFinal]
      exact load_data_idempotent cfg embedFn rest stMid store2 h

/-- Witness for C3: importing the sample-sized item `"doc"` with size 4,
overlap 1 into an empty collection, then importing it again, is a no-op. -/
theorem load_data_idempotent_witness :
    ∃ s, load_data ⟨4, 1⟩ none [⟨"doc", "abcdefghij".toList, []⟩] [] = Except.ok s ∧
      load_data ⟨4, 1⟩ none [⟨"doc", "abcdefghij".toList, []⟩] s = Except.ok s := by
  obtain ⟨s, hs⟩ :
      ∃ s, load_data ⟨4, 1⟩ none [⟨"doc", "abcdefghij".toList, []⟩] [] = Except.ok s :=
    ⟨_, rfl⟩
  exact ⟨s, hs, load_data_idempotent ⟨4, 1⟩ none _ [] s hs⟩

/-- C4: when the retrieved results contain no documents (the `documents`
field is absent, empty, or its first row is empty), `search_with_context`
returns the fixed sentinel for every backend `ask`, so no LLM call can
influence the result (the backend is not invoked). -/
theorem empty_results_no_llm_call (ask : String → Except String String)
    (user_query : String) (results : RagResults)
    (h : results.documents = none ∨ results.documents = some [] ∨
      ∃ rest, results.documents = some ([] :: rest)) :
    search_with_context ask user_query results = "[No results to process.]" := by
  rcases h with h | h | ⟨rest, h⟩ <;> simp [search_with_context, h]

/-- Witness for C4 with an absent `documents` field. -/
theorem empty_results_no_llm_call_witness :
    search_with_context (fun _ => Except.ok "answer") "query" ⟨none⟩ =
      "[No results to process.]" :=
  empty_results_no_llm_call (fun _ => Except.ok "answer") "query" ⟨none⟩ (Or.inl rfl)

/-- C7: `load_docs` with no URLs (absent or empty list) returns exactly the
five fixed sample documents with ids `doc1..doc5`, each with a non-empty
text and a metadata mapping containing a `source` key, independently of the
fetch function (hence deterministic). -/
theorem load_docs_default_sample (fetch : String → List Char)
    (urls : Option (List String)) (h : urls = none ∨ urls = some []) :
    load_docs fetch urls = sample_data ∧
    sample_data.map Item.id = ["doc1", "doc2", "doc3", "doc4", "doc5"] ∧
    sample_data.length = 5 ∧
    ∀ d ∈ sample_data, d.doc ≠ [] ∧ (d.meta.lookup "source").isSome := by
  refine ⟨?_, by decide, by decide, by decide⟩
  rcases h with h | h <;> simp [load_docs, h]

/-- Witness for C7 with `urls = none`. -/
theorem load_docs_default_sample_witness :
    load_docs (fun _ => []) none = sample_data ∧
    sample_data.map Item.id = ["doc1", "doc2", "doc3", "doc4", "doc5"] ∧
    sample_data.length = 5 ∧
    ∀ d ∈ sample_data, d.doc ≠ [] ∧ (d.meta.lookup "source").isSome :=
  load_docs_default_sample (fun _ => []) none (Or.inl rfl)

/-- C8: with a non-empty retrieved result set, an exception raised by the
LLM backend call is caught by `search_with_context` and converted into the
`"[LLM query error]"` string; on the local path, a connection failure or an
unexpected response shape likewise yields a textual error string rather
than an exception. -/
theorem llm_errors_as_strings (ask : String → Except String String)
    (user_query : String) (results : RagResults) (row0 : List String)
    (rest : List (List String)) (hdoc : results.documents = some (row0 :: rest))
    (hne : row0 ≠ []) :
    (∀ e, ask (buildPrompt (String.intercalate "\n" row0) user_query).trim =
        Except.error e →
      search_with_context ask user_query results = "[LLM query error]: " ++ e) ∧
    (∀ e, ask_ollama (Except.error e) =
      Except.ok ("[Connection error with Ollama]: " ++ e)) ∧
    ask_ollama (Except.ok ⟨none, none⟩) =
      Except.ok "[Error]: Unexpected response format from Ollama." := by
  refine ⟨?_, fun e => rfl, rfl⟩
  intro e he
  have hne2 : row0.isEmpty = false := by
    cases row0 with
    | nil => exact absurd rfl hne
    | cons a t => rfl
  simp [search_with_context, hdoc, hne2, he]

/-- Witness for C8 with one retrieved document and an always-failing
backend. -/
theorem llm_errors_as_strings_witness :
    search_with_context (fun _ => Except.error "boom") "query" ⟨some [["ctx"]]⟩ =
      "[LLM query error]: " ++ "boom" ∧
    ask_ollama (Except.error "down") =
      Except.ok ("[Connection error with Ollama]: " ++ "down") ∧
    ask_ollama (Except.ok ⟨none, none⟩) =
      Except.ok "[Error]: Unexpected response format from Ollama." := by
  obtain ⟨h1, h2, h3⟩ := llm_errors_as_strings (fun _ => Except.error "boom") "query"
    ⟨some [["ctx"]]⟩ ["ctx"] [] rfl (by decide)
  exact ⟨h1 "boom" rfl, h2 "down", h3⟩

/-- C9: constructing an embedder or an LLM search engine with provider
`"openai"` while `OPENAI_API_KEY` is absent or empty fails at construction
with a configuration error; with a non-empty key present, construction
succeeds, for every model name. -/
theorem openai_requires_api_key (env : String → Option String) (model_name : String) :
    ((env "OPENAI_API_KEY" = none ∨ env "OPENAI_API_KEY" = some "") →
      (∃ e, embedder_init env "openai" model_name = Except.error e) ∧
      (∃ e, llmsearch_init env "openai" model_name = Except.error e)) ∧
    (∀ k, env "OPENAI_API_KEY" = some k → k ≠ "" →
      embedder_init env "openai" model_name = Except.ok () ∧
      llmsearch_init env "openai" model_name = Except.ok ()) := by
  constructor
  · intro h
    have hkey : ((env "OPENAI_API_KEY").getD "").isEmpty = true := by
      rcases h with h | h <;> rw [h] <;> decide
    refine
      ⟨⟨"Missing OpenAI API key. Set the OPENAI_API_KEY environment variable in .env.", ?_⟩,
        ⟨"Missing environment variable OPENAI_API_KEY", ?_⟩⟩ <;>
      simp [embedder_init, llmsearch_init, hkey]
  · intro k hk hke
    have hkey : ((env "OPENAI_API_KEY").getD "").isEmpty = false := by
      rw [hk]
      cases hb : k.isEmpty
      · simpa using hb
      · exact absurd ((String.isEmpty_iff k).mp hb) hke
    constructor <;> simp [embedder_init, llmsearch_init, hkey]

/-- Witness for C9 with a missing key and with a non-empty key. -/
theorem openai_requires_api_key_witness :
    (∃ e, embedder_init (fun _ => none) "openai" "text-embedding-3-small" =
      Except.error e) ∧
    (∃ e, llmsearch_init (fun _ => none) "openai" "gpt-4o" = Except.error e) ∧
    embedder_init (fun _ => some "sk-key") "openai" "text-embedding-3-small" =
      Except.ok () ∧
    llmsearch_init (fun _ => some "sk-key") "openai" "gpt-4o" = Except.ok () := by
  obtain ⟨h1, _⟩ :=
    (openai_requires_api_key (fun _ => none) "text-embedding-3-small").1 (Or.inl rfl)
  obtain ⟨_, h2⟩ := (openai_requires_api_key (fun _ => none) "gpt-4o").1 (Or.inl rfl)
  obtain ⟨h3, _⟩ :=
    (openai_requires_api_key (fun _ => some "sk-key") "text-embedding-3-small").2
      "sk-key" rfl (by decide)
  obtain ⟨_, h4⟩ :=
    (openai_requires_api_key (fun _ => some "sk-key") "gpt-4o").2 "sk-key" rfl (by decide)
  exact ⟨h1, h2, h3, h4⟩

/-- C6: importing a document whose text is exactly 1000 characters long
with `chunk_size = 500` and `overlap = 50` into an empty collection
produces exactly 3 chunks, inserted in order under the ids
`<id>_chunk0`, `<id>_chunk1`, `<id>_chunk2`. -/
theorem import_1000_char_doc (embedFn : Option (List Char → List Int))
    (docId : String) (meta : List (String × String)) (text : List Char)
    (h : text.length = 1000) :
    ∃ store,
      load_data ⟨500, 50⟩ embedFn [⟨docId, text, meta⟩] [] = Except.ok store ∧
      store.map Record.id =
        [docId ++ "_chunk0", docId ++ "_chunk1", docId ++ "_chunk2"] ∧
      store.length = 3 := by
  have hst : chunkStartsF 1000 500 450 (1000 + 1) 0 = [0, 450, 500] := by decide
  have hct : chunk_text text 500 50 = Except.ok
      [(text.drop 0).take 500, (text.drop 450).take 500, (text.drop 500).take 500] := by
    rw [chunk_text, if_neg (by omega), if_neg (by omega)]
    show Except.ok (chunkLoopF text 500 450 (text.length + 1) 0) = _
    rw [chunkLoopF_eq_map, h, hst]
    rfl
  have e01 : (chunkId docId 0 == chunkId docId 1) = false :=
    beq_eq_false_iff_ne.mpr (chunkId_ne docId 0 1 (by decide))
  have e02 : (chunkId docId 0 == chunkId docId 2) = false :=
    beq_eq_false_iff_ne.mpr (chunkId_ne docId 0 2 (by decide))
  have e12 : (chunkId docId 1 == chunkId docId 2) = false :=
    beq_eq_false_iff_ne.mpr (chunkId_ne docId 1 2 (by decide))
  have hc0 : chunkId docId 0 = docId ++ "_chunk0" := by
    rw [chunkId_append, show "_chunk" ++ toString 0 = "_chunk0" from by decide]
  have hc1 : chunkId docId 1 = docId ++ "_chunk1" := by
    rw [chunkId_append, show "_chunk" ++ toString 1 = "_chunk1" from by decide]
  have hc2 : chunkId docId 2 = docId ++ "_chunk2" := by
    rw [chunkId_append, show "_chunk" ++ toString 2 = "_chunk2" from by decide]
  refine ⟨[⟨chunkId docId 0, (text.drop 0).take 500,
            embedFn.map (fun f => f ((text.drop 0).take 500)), meta⟩,
           ⟨chunkId docId 1, (text.drop 450).take 500,
            embedFn.map (fun f => f ((text.drop 450).take 500)), meta⟩,
           ⟨chunkId docId 2, (text.drop 500).take 500,
            embedFn.map (fun f => f ((text.drop 500).take 500)), meta⟩], ?_, ?_, rfl⟩
  · have hadd : addChunks embedFn docId meta 0
        [(text.drop 0).take 500, (text.drop 450).take 500, (text.drop 500).take 500] [] =
        [⟨chunkId docId 0, (text.drop 0).take 500,
          embedFn.map (fun f => f ((text.drop 0).take 500)), meta⟩,
         ⟨chunkId docId 1, (text.drop 450).take 500,
          embedFn.map (fun f => f ((text.drop 450).take 500)), meta⟩,
         ⟨chunkId docId 2, (text.drop 500).take 500,
          embedFn.map (fun f => f ((text.drop 500).take 500)), meta⟩] := by
      simp [addChunks, addChunk, storeHas, e01, e02, e12]
    simp only [load_data, loadItem, hct, Except.map, hadd]
  · simp [hc0, hc1, hc2]

/-- Witness for C6 at the 1000-character text `replicate 1000 'a'`. -/
theorem import_1000_char_doc_witness :
    ∃ store,
      load_data ⟨500, 50⟩ none [⟨"doc", List.replicate 1000 'a', []⟩] [] =
        Except.ok store ∧
      store.map Record.id =
        ["doc" ++ "_chunk0", "doc" ++ "_chunk1", "doc" ++ "_chunk2"] ∧
      store.length = 3 :=
  import_1000_char_doc none "doc" [] (List.replicate 1000 'a')
    (List.length_replicate 1000 'a')
